import Mathlib

/-!
Verification of the bulk media ingestion pipeline of profolia.art.

The definitions below are a shallow embedding of the TypeScript sources:
* `backend/src/controllers/profile.controller.ts` — `uploadMediaFile`,
  `uploadZipArchive`, `deleteMediaAsset`, `getMimeType`;
* `backend/src/services/aws.service.ts` — `generateMediaKey`, `uploadToS3`
  (URL construction);
* `backend/src/services/ai.service.ts` — `analyzeMedia`;
* `New Feature Documents/aws_media_service.ts` — `uploadArchive`,
  `deleteMedia` (the sibling media controller).

External collaborators (S3, the Anthropic API, JSON.parse, Prisma) are
modelled as oracle functions supplied in environment records; every theorem
quantifies over all oracle behaviours.  JavaScript strings are modelled as
Lean `String`s (ASCII case mapping, which is all the extension tables use);
byte buffers as `List Nat`.
-/

/-! ## JavaScript / Node string primitives used by the pipeline -/

/-- JS `String.prototype.toLowerCase`, restricted to ASCII case mapping
(the only characters the extension tables contain).  `Char.toLower` is
exactly the ASCII mapping. -/
def toLowerCase (s : String) : String := ⟨s.data.map Char.toLower⟩

/-- The part of a path after the last `/` (Node `path.basename`), on
character lists. -/
def basenameList (l : List Char) : List Char :=
  (l.reverse.takeWhile (fun c => c ≠ '/')).reverse

/-- Node `path.extname` on character lists: the suffix of the basename
starting at its last dot, empty when there is no dot or the only dot is the
leading character (dotfiles), and empty on the special basename `..`. -/
def extnameList (l : List Char) : List Char :=
  let b := basenameList l
  if b = ['.', '.'] then []
  else
    let pre := b.reverse.takeWhile (fun c => c ≠ '.')
    if pre.length + 1 < b.length then '.' :: pre.reverse else []

/-- Node `path.extname`. -/
def extname (s : String) : String := ⟨extnameList s.data⟩

/-- Fuel-driven decimal rendering; the fuel only makes the recursion
structural and is always sufficient at `natDec`. -/
def natDecAux : Nat → Nat → List Char
  | 0, _ => []
  | fuel + 1, n =>
    if n < 10 then [Nat.digitChar n]
    else natDecAux fuel (n / 10) ++ [Nat.digitChar (n % 10)]

/-- Decimal rendering of a natural number (JS number-to-string for the
`Date.now()` timestamp interpolated into storage keys). -/
def natDec (n : Nat) : List Char := natDecAux (n + 1) n

/-- Decimal rendering as a `String`. -/
def natDecStr (n : Nat) : String := ⟨natDec n⟩

/-- `s.startsWith(p)` on character lists (JS `String.prototype.startsWith`). -/
def startsWithList : List Char → List Char → Bool
  | _, [] => true
  | [], _ :: _ => false
  | c :: cs, p :: ps => c = p && startsWithList cs ps

/-- JS `String.prototype.startsWith`. -/
def jsStartsWith (s p : String) : Bool := startsWithList s.data p.data

/-- The substring after the last dot, or the whole string when it has no
dot: exactly what `fileName.split('.').pop()` evaluates to in JS. -/
def lastDotSegList (l : List Char) : List Char :=
  if '.' ∈ l then (l.reverse.takeWhile (fun c => c ≠ '.')).reverse else l

/-- `fileName.split('.').pop()` (JS). -/
def lastDotSeg (s : String) : String := ⟨lastDotSegList s.data⟩

/-- Split a character list at the first occurrence of the (non-empty)
separator `sep`, returning the parts before and after it. -/
def breakOnSep (sep : List Char) : List Char → Option (List Char × List Char)
  | [] => none
  | c :: cs =>
    if startsWithList (c :: cs) sep then some ([], (c :: cs).drop sep.length)
    else (breakOnSep sep cs).map (fun p => (c :: p.1, p.2))

/-- Fuel-driven repeated split (the fuel only makes the recursion
structural; `l.length + 1` is always sufficient). -/
def splitListAux (sep : List Char) : Nat → List Char → List (List Char)
  | 0, l => [l]
  | fuel + 1, l =>
    match breakOnSep sep l with
    | none => [l]
    | some (before, after) => before :: splitListAux sep fuel after

/-- JS `String.prototype.split` with a non-empty string separator. -/
def jsSplit (sep s : String) : List String :=
  (splitListAux sep.data (s.data.length + 1) s.data).map (fun l => ⟨l⟩)

/-- Decimal parsing, the inverse used to prove `natDec` injective. -/
def parseDec (l : List Char) : Nat :=
  l.foldl (fun a c => a * 10 + (c.toNat - 48)) 0

/-! ## Key generation — `backend/src/services/aws.service.ts`, `generateMediaKey` -/

/-- `generateMediaKey` from `aws.service.ts` (lines 112–117).  The source
reads `Date.now()` and `crypto.randomBytes(8).toString('hex')`; these two
effects are passed in as the `timestamp` and `hash` arguments.  The
extension is `fileName.split('.').pop()`: the substring after the last dot
of the whole file name, unchanged in case (the whole name when it has no
dot). -/
def generateMediaKey (profileId fileName : String) (timestamp : Nat) (hash : String) :
    String :=
  "media/" ++ profileId ++ "/" ++ natDecStr timestamp ++ "-" ++ hash ++ "." ++
    lastDotSeg fileName

/-! ## Type resolution — `profile.controller.ts` lines 454–490 and 605–624 -/

/-- The `supportedTypes.some(...)` check of `uploadZipArchive`
(`profile.controller.ts` lines 467–473), applied to the already
lower-cased extension. -/
def isSupportedType (ext : String) : Bool :=
  (ext = ".jpg" || ext = ".jpeg" || ext = ".png" || ext = ".gif" || ext = ".webp") ||
  (ext = ".mp4" || ext = ".webm" || ext = ".mov" || ext = ".avi") ||
  (ext = ".mp3" || ext = ".wav" || ext = ".ogg" || ext = ".m4a") ||
  (ext = ".pdf")

/-- `getMimeType` from `profile.controller.ts` lines 605–624: the fixed
extension-to-MIME table, keyed on the lower-cased extension, with
`application/octet-stream` as the default. -/
def getMimeType (ext : String) : String :=
  let e := toLowerCase ext
  if e = ".jpg" then "image/jpeg"
  else if e = ".jpeg" then "image/jpeg"
  else if e = ".png" then "image/png"
  else if e = ".gif" then "image/gif"
  else if e = ".webp" then "image/webp"
  else if e = ".mp4" then "video/mp4"
  else if e = ".webm" then "video/webm"
  else if e = ".mov" then "video/quicktime"
  else if e = ".avi" then "video/x-msvideo"
  else if e = ".mp3" then "audio/mpeg"
  else if e = ".wav" then "audio/wav"
  else if e = ".ogg" then "audio/ogg"
  else if e = ".m4a" then "audio/mp4"
  else if e = ".pdf" then "application/pdf"
  else "application/octet-stream"

/-- The file-kind derivation used by both upload controllers: dispatch on
whether the MIME string starts with `image`/`video`/`audio`, defaulting to
`document` (`profile.controller.ts` lines 391–394 and 487–490). -/
def fileTypeOf (mimetype : String) : String :=
  if jsStartsWith mimetype "image" then "image"
  else if jsStartsWith mimetype "video" then "video"
  else if jsStartsWith mimetype "audio" then "audio"
  else "document"

/-- The per-entry type resolution of `uploadZipArchive` as one function:
lower-case the `path.extname` of the entry name, reject unsupported
extensions, otherwise return the canonical kind and the concrete MIME type
(`profile.controller.ts` lines 464–490). -/
def resolveEntryType (fileName : String) : Option (String × String) :=
  let ext := toLowerCase (extname fileName)
  if isSupportedType ext then
    let mimeType := getMimeType ext
    some (fileTypeOf mimeType, mimeType)
  else none

/-! ## Content Classifier adapter — `ai.service.ts`, `analyzeMedia` -/

/-- One element of the `fileData` batch handed to `analyzeMedia`. -/
structure FileDesc where
  fileName : String
  fileType : String
  description : Option String
deriving DecidableEq, Repr

/-- One parsed classifier result object (`category`, `tags`,
`description`; the `fileName` echo in the service's JSON schema is unused
by both controllers and omitted). -/
structure MediaData where
  category : String
  tags : List String
  description : String
deriving DecidableEq, Repr

/-- The first content block of an Anthropic response: either a text block
or a block of another type. -/
inductive MsgContent where
  | text (s : String)
  | other
deriving DecidableEq, Repr

/-- Oracle for the two external effects inside `analyzeMedia`: the
`anthropic.messages.create` call (`.error` = the call throws, which in
`ai.service.ts` is caught and rethrown unchanged) and the markdown-fence
cleanup plus `JSON.parse` of a text block, combined into one parsing
function (`.error` = `JSON.parse` throws on malformed JSON). -/
structure ClassifierEnv where
  createMessage : List FileDesc → String → Except String MsgContent
  parseContent : String → Except String (List MediaData)

/-- `analyzeMedia` from `ai.service.ts` (lines 64–108 of the backend
service): call the model, return the parsed JSON for a text block, return
`[]` for a non-text block, and propagate any thrown error to the caller
(the `catch` block logs and rethrows). -/
def analyzeMedia (env : ClassifierEnv) (fileData : List FileDesc)
    (professionType : String) : Except String (List MediaData) :=
  match env.createMessage fileData professionType with
  | .error e => .error e
  | .ok (.text s) => env.parseContent s
  | .ok .other => .ok []

/-! ## Data model -/

/-- The owning profile fields the pipeline reads. -/
structure Profile where
  id : String
  username : String
  professionType : String
deriving DecidableEq, Repr

/-- A multer in-memory upload (`req.file`). -/
structure UploadedFile where
  originalname : String
  mimetype : String
  buffer : List Nat
  size : Nat
deriving DecidableEq, Repr

/-- The MediaAsset record persisted by `prisma.mediaAsset.create`.  `tags`
is kept as the list that the source `JSON.stringify`s, and `metadata` as
the `mediaData` object it stringifies. -/
structure MediaAsset where
  profileId : String
  fileName : String
  fileType : String
  fileUrl : String
  fileSize : Nat
  category : String
  tags : List String
  metadata : MediaData
deriving DecidableEq, Repr

/-! ## Single-file upload — `profile.controller.ts`, `uploadMediaFile` -/

/-- Oracles for the effects of `uploadMediaFile`: the S3 put
(`uploadToS3 key body contentType`, returning the public URL or throwing),
the classifier, and `prisma.mediaAsset.create` (which can throw).  `now`
and `randomHex` are the `Date.now()` / `crypto.randomBytes(8)` values read
inside `generateMediaKey`. -/
structure SingleEnv where
  upload : String → List Nat → String → Except String String
  classifier : ClassifierEnv
  dbCreate : MediaAsset → Except String Unit
  now : Nat
  randomHex : String

/-- Outcome of `uploadMediaFile`: the 201 response carrying the persisted
asset and its S3 key, or the error forwarded to `next(error)`. -/
inductive SingleResult where
  | success (mediaAsset : MediaAsset) (s3Key : String)
  | error (e : String)
deriving DecidableEq, Repr

/-- Externally observable effects of one `uploadMediaFile` request: keys
successfully uploaded to S3 and MediaAsset records successfully persisted. -/
structure SingleEffects where
  uploads : List String
  creates : List MediaAsset
deriving DecidableEq, Repr

/-- `uploadMediaFile` from `profile.controller.ts` lines 366–430, after the
profile lookup: generate the S3 key, upload, derive the kind from the
request MIME type, call `analyzeMedia` with a one-element batch, fall back
to the `Uncategorized`/empty default only when the returned array has no
first element, persist, and answer 201.  Any thrown step reaches the
surrounding `catch` and becomes a request-level error. -/
def uploadMediaFile (env : SingleEnv) (profile : Profile) (file : UploadedFile)
    (description : Option String) : SingleResult × SingleEffects :=
  let s3Key := generateMediaKey profile.id file.originalname env.now env.randomHex
  match env.upload s3Key file.buffer file.mimetype with
  | .error e => (.error e, ⟨[], []⟩)
  | .ok fileUrl =>
    let fileType := fileTypeOf file.mimetype
    match analyzeMedia env.classifier [⟨file.originalname, fileType, description⟩]
        profile.professionType with
    | .error e => (.error e, ⟨[s3Key], []⟩)
    | .ok analysis =>
      let mediaData := analysis.head?.getD ⟨"Uncategorized", [], description.getD ""⟩
      let mediaAsset : MediaAsset := ⟨profile.id, file.originalname, fileType, fileUrl,
        file.size, mediaData.category, mediaData.tags, mediaData⟩
      match env.dbCreate mediaAsset with
      | .error e => (.error e, ⟨[s3Key], []⟩)
      | .ok _ => (.success mediaAsset s3Key, ⟨[s3Key], [mediaAsset]⟩)

/-! ## Archive upload — `profile.controller.ts`, `uploadZipArchive` -/

deriving instance DecidableEq for Except

/-- One entry of the parsed archive.  `getData` carries the outcome of
`entry.getData()` (`.error` = the adm-zip read throws for this entry). -/
structure ZipEntry where
  name : String
  isDirectory : Bool
  getData : Except String (List Nat)
deriving DecidableEq, Repr

/-- Oracles for `uploadZipArchive`: the archive parser (`new AdmZip` +
`getEntries`, throwing on corrupt bytes), the S3 put, the classifier,
the record store, and the `(Date.now(), randomBytes)` pair read by the
i-th `generateMediaKey` call of the loop. -/
structure ZipEnv where
  parseZip : List Nat → Except String (List ZipEntry)
  upload : String → List Nat → String → Except String String
  classifier : ClassifierEnv
  dbCreate : MediaAsset → Except String Unit
  token : Nat → Nat × String

/-- A member of the `errors` array of the batch response. -/
structure FailEntry where
  fileName : String
  error : String
deriving DecidableEq, Repr

/-- What one loop iteration of `uploadZipArchive` contributes: at most one
push to `uploadedAssets`, at most one push to `errors`, plus the traces of
its external effects (successful S3 puts, `analyzeMedia` invocations,
persisted records). -/
structure EntryTrace where
  asset? : Option MediaAsset
  error? : Option FailEntry
  uploadedKeys : List String
  analyzeCalls : Nat
  created : List MediaAsset
deriving DecidableEq, Repr

/-- One iteration of the entry loop of `uploadZipArchive`
(`profile.controller.ts` lines 458–522): skip directories; a thrown
`getData` is caught by the per-entry `catch`; unsupported extensions push
an `Unsupported file type` failure; otherwise generate a key, upload
(failure caught per entry), classify this single entry, fall back to the
default `mediaData` when the result array is empty, and persist. -/
def processEntry (env : ZipEnv) (profile : Profile) (idx : Nat) (entry : ZipEntry) :
    EntryTrace :=
  if entry.isDirectory then ⟨none, none, [], 0, []⟩
  else
    let fileName := entry.name
    match entry.getData with
    | .error e => ⟨none, some ⟨fileName, e⟩, [], 0, []⟩
    | .ok fileBuffer =>
      let ext := toLowerCase (extname fileName)
      if ¬ isSupportedType ext then
        ⟨none, some ⟨fileName, "Unsupported file type"⟩, [], 0, []⟩
      else
        let ts := (env.token idx).1
        let hash := (env.token idx).2
        let s3Key := generateMediaKey profile.id fileName ts hash
        let mimeType := getMimeType ext
        match env.upload s3Key fileBuffer mimeType with
        | .error e => ⟨none, some ⟨fileName, e⟩, [], 0, []⟩
        | .ok fileUrl =>
          let fileType := fileTypeOf mimeType
          match analyzeMedia env.classifier [⟨fileName, fileType, none⟩]
              profile.professionType with
          | .error e => ⟨none, some ⟨fileName, e⟩, [s3Key], 1, []⟩
          | .ok analysis =>
            let mediaData := analysis.head?.getD ⟨"Uncategorized", [], ""⟩
            let mediaAsset : MediaAsset := ⟨profile.id, fileName, fileType, fileUrl,
              fileBuffer.length, mediaData.category, mediaData.tags, mediaData⟩
            match env.dbCreate mediaAsset with
            | .error e => ⟨none, some ⟨fileName, e⟩, [s3Key], 1, []⟩
            | .ok _ => ⟨some mediaAsset, none, [s3Key], 1, [mediaAsset]⟩

/-- The sequential entry loop; `idx` counts the key generations made so
far, so that the i-th iteration reads the i-th `(Date.now, randomBytes)`
pair. -/
def runEntries (env : ZipEnv) (profile : Profile) : Nat → List ZipEntry → List EntryTrace
  | _, [] => []
  | idx, entry :: rest =>
    processEntry env profile idx entry :: runEntries env profile (idx + 1) rest

/-- The `summary` object of the 201 batch response. -/
structure BatchSummary where
  total : Nat
  successful : Nat
  failed : Nat
deriving DecidableEq, Repr

/-- The 201 response body of `uploadZipArchive`. -/
structure BatchResponse where
  uploadedAssets : List MediaAsset
  errors : List FailEntry
  summary : BatchSummary
deriving DecidableEq, Repr

/-- Externally observable effects of one `uploadZipArchive` request. -/
structure ZipEffects where
  uploads : List String
  creates : List MediaAsset
  analyzeCalls : Nat
deriving DecidableEq, Repr

/-- Outcome of `uploadZipArchive`: the aggregated 201 response, or the
request-level error forwarded to `next(error)`. -/
inductive ZipResult where
  | ok (r : BatchResponse)
  | error (e : String)
deriving DecidableEq, Repr

/-- `uploadZipArchive` from `profile.controller.ts` lines 436–537, after
the profile lookup: parse the archive (a throw here aborts the whole
request through the outer `catch`), run the per-entry loop, and build the
response with `total = uploadedAssets.length + errors.length`. -/
def uploadZipArchive (env : ZipEnv) (profile : Profile) (zipBuffer : List Nat) :
    ZipResult × ZipEffects :=
  match env.parseZip zipBuffer with
  | .error e => (.error e, ⟨[], [], 0⟩)
  | .ok zipEntries =>
    let traces := runEntries env profile 0 zipEntries
    let uploadedAssets := traces.filterMap (·.asset?)
    let errors := traces.filterMap (·.error?)
    (.ok ⟨uploadedAssets, errors,
        ⟨uploadedAssets.length + errors.length, uploadedAssets.length, errors.length⟩⟩,
      ⟨(traces.map (·.uploadedKeys)).flatten, (traces.map (·.created)).flatten,
        (traces.map (·.analyzeCalls)).sum⟩)

/-! ## Sibling batch upload — `New Feature Documents/aws_media_service.ts`,
`uploadArchive` -/

/-- Oracles for the sibling `uploadArchive` controller; `uuid` is the
`crypto.randomUUID()` drawn for the i-th uploaded entry. -/
structure ArchiveEnv where
  parseZip : List Nat → Except String (List ZipEntry)
  upload : String → List Nat → String → Except String String
  classifier : ClassifierEnv
  uuid : Nat → String

/-- The inline MIME dispatch of the sibling `uploadArchive`
(`aws_media_service.ts` lines 187–195), on the lower-cased extension. -/
def archiveMime (fileExt : String) : String :=
  if fileExt = ".jpg" || fileExt = ".jpeg" then "image/jpeg"
  else if fileExt = ".png" then "image/png"
  else if fileExt = ".gif" then "image/gif"
  else if fileExt = ".webp" then "image/webp"
  else if fileExt = ".mp4" then "video/mp4"
  else if fileExt = ".webm" then "video/webm"
  else if fileExt = ".mp3" then "audio/mpeg"
  else if fileExt = ".wav" then "audio/wav"
  else "application/octet-stream"

/-- One element of the sibling's `uploadedFiles` accumulator. -/
structure ArchiveUpload where
  fileName : String
  fileType : String
  fileUrl : String
  fileSize : Nat
deriving DecidableEq, Repr

/-- The upload loop of the sibling `uploadArchive` (`aws_media_service.ts`
lines 180–218).  There is no per-entry `catch`: a thrown `getData` or
upload rejection aborts the whole request.  Every non-directory entry is
uploaded (unknown extensions fall back to `application/octet-stream`
rather than being skipped).  The sibling reads `entry.entryName`; the
model's single `name` field stands for it. -/
def collectUploads (env : ArchiveEnv) (username : String) :
    Nat → List ZipEntry → Except String (List ArchiveUpload)
  | _, [] => .ok []
  | idx, entry :: rest =>
    if entry.isDirectory then collectUploads env username idx rest
    else
      match entry.getData with
      | .error e => .error e
      | .ok buf =>
        let fileExt := toLowerCase (extname entry.name)
        let mimeType := archiveMime fileExt
        let fileKey := "media/" ++ username ++ "/" ++ env.uuid idx ++ fileExt
        match env.upload fileKey buf mimeType with
        | .error e => .error e
        | .ok fileUrl =>
          match collectUploads env username (idx + 1) rest with
          | .error e => .error e
          | .ok others =>
            .ok (⟨entry.name, fileTypeOf mimeType, fileUrl, buf.length⟩ :: others)

/-- Outcome of the sibling `uploadArchive`: each uploaded file paired with
its positionally matched classifier entry (`analyzedFiles[index]`,
`none` when the classifier returned fewer entries), or a request-level
error.  The per-item Prisma writes consume exactly these pairs and are not
needed by the claims about this variant. -/
inductive ArchiveResult where
  | ok (results : List (ArchiveUpload × Option MediaData))
  | error (e : String)
deriving Repr

/-- The sibling `uploadArchive` (`aws_media_service.ts` lines 157–252)
after the profile lookup.  The second component counts `analyzeMedia`
invocations: the classifier runs exactly once, after the whole upload
loop, over the batch of all uploaded descriptors. -/
def uploadArchive (env : ArchiveEnv) (profile : Profile) (zipBuffer : List Nat) :
    ArchiveResult × Nat :=
  match env.parseZip zipBuffer with
  | .error e => (.error e, 0)
  | .ok zipEntries =>
    match collectUploads env profile.username 0 zipEntries with
    | .error e => (.error e, 0)
    | .ok uploadedFiles =>
      let fileDescriptions := uploadedFiles.map
        (fun f => FileDesc.mk f.fileName f.fileType none)
      match analyzeMedia env.classifier fileDescriptions profile.professionType with
      | .error e => (.error e, 1)
      | .ok analyzedFiles =>
        (.ok (uploadedFiles.enum.map (fun p => (p.2, analyzedFiles[p.1]?))), 1)

/-! ## Storage URLs and key extraction — `aws.service.ts` `uploadToS3`,
`profile.controller.ts` `deleteMediaAsset`, `aws_media_service.ts`
`deleteMedia` -/

/-- The public URL returned by `uploadToS3` (`aws.service.ts` line 33):
virtual-hosted style, `https://BUCKET.s3.amazonaws.com/KEY`. -/
def s3Url (bucket key : String) : String :=
  "https://" ++ bucket ++ ".s3.amazonaws.com/" ++ key

/-- The key extraction of `deleteMediaAsset` (`profile.controller.ts`
line 588): `mediaAsset.fileUrl.split(BUCKET + "/")[1]` — `none` models the
JS `undefined` produced when the separator does not occur in the URL. -/
def extractS3Key (bucket fileUrl : String) : Option String :=
  (jsSplit (bucket ++ "/") fileUrl)[1]?

/-- The key extraction of the sibling `deleteMedia`
(`aws_media_service.ts` lines 321–322): `new URL(fileUrl).pathname`
without its leading slash, on character lists — skip the 8 scheme
characters `https://`, then everything up to the first slash (the host),
then that slash. -/
def urlKeyList (l : List Char) : List Char :=
  (((l.drop 8).dropWhile (fun c => c ≠ '/')).drop 1)

/-- `new URL(fileUrl).pathname.substring(1)` for https URLs. -/
def deleteMediaKey (fileUrl : String) : String := ⟨urlKeyList fileUrl.data⟩



/-- Number of outcomes (success push plus failure push) one entry trace
contributes to the batch response. -/
def outcomeCount (tr : EntryTrace) : Nat :=
  tr.asset?.toList.length + tr.error?.toList.length

/-! ## Concrete test fixtures (used by witnesses and counterexamples) -/

/-- A concrete profile. -/
def testProfile : Profile := ⟨"p1", "vetri", "Photographer"⟩

/-- A classifier whose model call returns a non-text content block (the
adapter then yields an empty result list without throwing). -/
def emptyResultClassifier : ClassifierEnv :=
  ⟨fun _ _ => .ok .other, fun _ => .ok []⟩

/-- A classifier whose model call throws. -/
def throwingClassifier : ClassifierEnv :=
  ⟨fun _ _ => .error "APIConnectionError", fun _ => .ok []⟩

/-- A classifier that answers with a text block that is not valid JSON, so
the JSON parse throws. -/
def malformedClassifier : ClassifierEnv :=
  ⟨fun _ _ => .ok (.text "Sure! Here is a friendly answer."),
    fun _ => .error "SyntaxError: Unexpected token"⟩

/-- A single-upload environment where S3 and the database succeed but the
classifier call throws. -/
def throwingSingleEnv : SingleEnv :=
  ⟨fun _ _ _ => .ok "https://url", throwingClassifier, fun _ => .ok (), 1700, "00ff"⟩

/-- A single-upload environment where S3 and the database succeed and the
classifier yields an empty result list. -/
def emptySingleEnv : SingleEnv :=
  ⟨fun _ _ _ => .ok "https://url", emptyResultClassifier, fun _ => .ok (), 1700, "00ff"⟩

/-- A concrete single-file upload (`resume.pdf`). -/
def testPdfFile : UploadedFile := ⟨"resume.pdf", "application/pdf", [37, 80, 68, 70], 4⟩

/-- A two-entry archive: `a.jpg` and `b.mp4`, both readable. -/
def testTwoEntries : List ZipEntry :=
  [⟨"a.jpg", false, .ok [1, 2]⟩, ⟨"b.mp4", false, .ok [3, 4]⟩]

/-- A batch environment whose parser yields `testTwoEntries` and whose
other collaborators all succeed. -/
def twoEntryZipEnv : ZipEnv :=
  ⟨fun _ => .ok testTwoEntries, fun _ _ _ => .ok "https://url",
    emptyResultClassifier, fun _ => .ok (), fun i => (i, "00ff")⟩

/-- A three-entry archive with one unsupported entry (`c.exe`). -/
def testMixedEntries : List ZipEntry :=
  [⟨"a.jpg", false, .ok [1, 2]⟩, ⟨"b.mp4", false, .ok [3, 4]⟩, ⟨"c.exe", false, .ok [5]⟩]

/-- A batch environment whose parser yields `testMixedEntries`. -/
def mixedZipEnv : ZipEnv :=
  ⟨fun _ => .ok testMixedEntries, fun _ _ _ => .ok "https://url",
    emptyResultClassifier, fun _ => .ok (), fun i => (i, "00ff")⟩

/-- A batch environment whose archive parser throws (corrupt bytes). -/
def corruptZipEnv : ZipEnv :=
  ⟨fun _ => .error "Invalid or unsupported zip format",
    fun _ _ _ => .ok "https://url", emptyResultClassifier,
    fun _ => .ok (), fun i => (i, "00ff")⟩

/-- A sibling-controller environment over the same two-entry archive. -/
def twoEntryArchiveEnv : ArchiveEnv :=
  ⟨fun _ => .ok testTwoEntries, fun _ _ _ => .ok "https://url",
    emptyResultClassifier, fun _ => "uuid"⟩


/-! ## Helper lemmas -/

/-! ### Character-level lemmas -/

theorem charToNat_ofNat_valid (n : Nat) (h : n.isValidChar) :
    (Char.ofNat n).toNat = n := by
  simp [Char.ofNat, dif_pos h, Char.ofNatAux, Char.toNat, UInt32.toNat]

theorem toLower_eq_iff (d : Char) (hd : d.toNat < 65) (c : Char) :
    (Char.toLower c = d) ↔ (c = d) := by
  unfold Char.toLower
  simp only []
  split
  · rename_i h
    constructor
    · intro he
      have hv : (Char.ofNat (c.toNat + 32)).toNat = c.toNat + 32 := by
        apply charToNat_ofNat_valid
        left
        have : c.toNat ≤ 90 := h.2
        omega
      rw [he] at hv
      exfalso
      have h65 : 65 ≤ c.toNat := h.1
      omega
    · intro he
      subst he
      exfalso
      have := h.1
      omega
  · exact Iff.rfl

theorem toLower_eq_dot_iff (c : Char) : (Char.toLower c = '.') ↔ (c = '.') :=
  toLower_eq_iff '.' (by decide) c

theorem toLower_eq_slash_iff (c : Char) : (Char.toLower c = '/') ↔ (c = '/') :=
  toLower_eq_iff '/' (by decide) c

/-! ### `extname` commutes with ASCII lower-casing -/

theorem takeWhile_map_toLower_ne (d : Char) (hd : d.toNat < 65) (l : List Char) :
    (l.map Char.toLower).takeWhile (fun c => c ≠ d) =
      (l.takeWhile (fun c => c ≠ d)).map Char.toLower := by
  induction l with
  | nil => rfl
  | cons a as ih =>
    simp only [List.map_cons, List.takeWhile_cons]
    have hb : (decide (Char.toLower a ≠ d)) = (decide (a ≠ d)) := by
      by_cases h : a = d
      · rw [(toLower_eq_iff d hd a).mpr h, h]
      · have hne : ¬ (Char.toLower a = d) := fun hc => h ((toLower_eq_iff d hd a).mp hc)
        simp [h, hne]
    rw [hb]
    simp only [ne_eq, decide_not] at ih ⊢
    by_cases h : a = d
    · simp [h]
    · have hdec : decide (a = d) = false := by simp [h]
      simp only [hdec, Bool.not_false, if_true]
      rw [ih]
      simp

theorem basenameList_map_toLower (l : List Char) :
    basenameList (l.map Char.toLower) = (basenameList l).map Char.toLower := by
  unfold basenameList
  rw [← List.map_reverse, takeWhile_map_toLower_ne '/' (by decide),
    List.map_reverse]

theorem map_toLower_eq_dotdot (m : List Char) (hc : m.map Char.toLower = ['.', '.']) :
    m = ['.', '.'] := by
  rcases m with _ | ⟨x, _ | ⟨y, _ | ⟨z, zs⟩⟩⟩
  · simp at hc
  · simp at hc
  · simp only [List.map_cons, List.map_nil, List.cons.injEq, and_true] at hc
    rw [(toLower_eq_dot_iff x).mp hc.1, (toLower_eq_dot_iff y).mp hc.2]
  · simp at hc

theorem extnameList_map_toLower (l : List Char) :
    extnameList (l.map Char.toLower) = (extnameList l).map Char.toLower := by
  unfold extnameList
  rw [basenameList_map_toLower]
  simp only []
  by_cases hb : basenameList l = ['.', '.']
  · simp [hb]
  · have hb2 : (basenameList l).map Char.toLower ≠ ['.', '.'] :=
      fun hc => hb (map_toLower_eq_dotdot _ hc)
    rw [if_neg hb2, if_neg hb]
    rw [← List.map_reverse, takeWhile_map_toLower_ne '.' (by decide)]
    by_cases hlen : ((basenameList l).reverse.takeWhile (fun c => c ≠ '.')).length + 1 <
        (basenameList l).length
    · simp only [List.length_map, List.length_reverse, hlen, if_true]
      simp [List.map_reverse, Char.toLower]
    · simp only [List.length_map, List.length_reverse, hlen, if_false]
      rfl

theorem extname_toLowerCase (s : String) :
    extname (toLowerCase s) = toLowerCase (extname s) := by
  unfold extname toLowerCase
  simp only []
  rw [extnameList_map_toLower]

/-! ### Decimal rendering lemmas -/

theorem digitChar_toNat (k : Nat) (hk : k < 10) : (Nat.digitChar k).toNat = 48 + k := by
  interval_cases k <;> decide

theorem digitChar_ne_dash (k : Nat) (hk : k < 10) : Nat.digitChar k ≠ '-' := by
  interval_cases k <;> decide

theorem parseDec_append (xs : List Char) (c : Char) :
    parseDec (xs ++ [c]) = parseDec xs * 10 + (c.toNat - 48) := by
  unfold parseDec
  rw [List.foldl_append]
  rfl

theorem parseDec_natDecAux (fuel : Nat) :
    ∀ n, n < fuel → parseDec (natDecAux fuel n) = n := by
  induction fuel with
  | zero => intro n hn; omega
  | succ fuel ih =>
    intro n hn
    unfold natDecAux
    by_cases h : n < 10
    · rw [if_pos h]
      unfold parseDec
      simp [List.foldl, digitChar_toNat n h]
    · rw [if_neg h]
      have hdiv : n / 10 < fuel := by
        have h2 : n / 10 < n := Nat.div_lt_self (by omega) (by omega)
        omega
      rw [parseDec_append, ih (n / 10) hdiv]
      rw [digitChar_toNat (n % 10) (Nat.mod_lt n (by omega))]
      omega

theorem parseDec_natDec (n : Nat) : parseDec (natDec n) = n :=
  parseDec_natDecAux (n + 1) n (by omega)

theorem natDec_inj (m n : Nat) (h : natDec m = natDec n) : m = n := by
  have := parseDec_natDec m
  rw [h, parseDec_natDec n] at this
  omega

theorem natDecAux_ne_dash (fuel : Nat) :
    ∀ n, n < fuel → ∀ c ∈ natDecAux fuel n, c ≠ '-' := by
  induction fuel with
  | zero => intro n hn; omega
  | succ fuel ih =>
    intro n hn
    unfold natDecAux
    by_cases h : n < 10
    · rw [if_pos h]
      intro c hc
      simp at hc
      rw [hc]
      exact digitChar_ne_dash n h
    · rw [if_neg h]
      intro c hc
      rcases List.mem_append.mp hc with hm | hm
      · have hdiv : n / 10 < fuel := by
          have h2 : n / 10 < n := Nat.div_lt_self (by omega) (by omega)
          omega
        exact ih (n / 10) hdiv c hm
      · simp at hm
        rw [hm]
        exact digitChar_ne_dash (n % 10) (Nat.mod_lt n (by omega))

theorem natDec_ne_dash (n : Nat) : ∀ c ∈ natDec n, c ≠ '-' :=
  natDecAux_ne_dash (n + 1) n (by omega)

/-- If `xs` and `ys` contain no dash, a dash splits their extensions
uniquely: `xs ++ '-' :: as = ys ++ '-' :: bs` forces `xs = ys`, `as = bs`. -/
theorem append_dash_cancel (xs : List Char) (hxs : ∀ c ∈ xs, c ≠ '-') :
    ∀ (ys : List Char), (∀ c ∈ ys, c ≠ '-') →
      ∀ (as bs : List Char), xs ++ '-' :: as = ys ++ '-' :: bs →
        xs = ys ∧ as = bs := by
  induction xs with
  | nil =>
    intro ys hys as bs h
    rcases ys with _ | ⟨y, ys⟩
    · simp at h
      exact ⟨rfl, h⟩
    · simp at h
      exfalso
      exact hys y (by simp) h.1.symm
  | cons x xs ih =>
    intro ys hys as bs h
    rcases ys with _ | ⟨y, ys⟩
    · simp at h
      exfalso
      exact hxs x (by simp) h.1
    · simp at h
      obtain ⟨hxy, hrest⟩ := h
      obtain ⟨h1, h2⟩ := ih (fun c hc => hxs c (by simp [hc])) ys
        (fun c hc => hys c (by simp [hc])) as bs hrest
      exact ⟨by rw [hxy, h1], h2⟩

theorem string_ext (s t : String) (h : s.data = t.data) : s = t := by
  cases s; cases t; exact congrArg String.mk h

/-- Injectivity of `generateMediaKey` in the uniqueness token: same owner and
file name, equal keys force equal timestamp and equal random-hex suffix. -/
theorem generateMediaKey_token_inj (profileId fileName : String)
    (t1 t2 : Nat) (h1 h2 : String)
    (heq : generateMediaKey profileId fileName t1 h1 =
      generateMediaKey profileId fileName t2 h2) : t1 = t2 ∧ h1 = h2 := by
  unfold generateMediaKey natDecStr at heq
  have hdata := congrArg String.data heq
  simp only [String.data_append, List.append_assoc] at hdata
  have hmid := List.append_cancel_left (List.append_cancel_left
    (List.append_cancel_left hdata))
  simp only [List.singleton_append, List.cons_append] at hmid
  have hsplit := append_dash_cancel (natDec t1) (natDec_ne_dash t1) (natDec t2)
    (natDec_ne_dash t2) _ _ hmid
  constructor
  · exact natDec_inj t1 t2 hsplit.1
  · exact string_ext h1 h2 (List.append_cancel_right hsplit.2)

/-! ### Per-entry facts about the `uploadZipArchive` loop -/

theorem processEntry_dir (env : ZipEnv) (profile : Profile) (idx : Nat)
    (entry : ZipEntry) (h : entry.isDirectory = true) :
    processEntry env profile idx entry = ⟨none, none, [], 0, []⟩ := by
  unfold processEntry
  rw [h]
  simp

theorem processEntry_outcomeCount (env : ZipEnv) (profile : Profile) (idx : Nat)
    (entry : ZipEntry) :
    outcomeCount (processEntry env profile idx entry) =
      if entry.isDirectory then 0 else 1 := by
  unfold processEntry
  by_cases hdir : entry.isDirectory
  · rw [if_pos hdir, if_pos hdir]
    rfl
  · rw [if_neg hdir, if_neg hdir]
    rcases entry.getData with e | buf
    · rfl
    · simp only []
      split
      · rfl
      · split
        · rfl
        · split
          · rfl
          · split <;> rfl

theorem processEntry_error_name (env : ZipEnv) (profile : Profile) (idx : Nat)
    (entry : ZipEntry) (f : FailEntry)
    (h : (processEntry env profile idx entry).error? = some f) :
    f.fileName = entry.name := by
  obtain ⟨fn, fe⟩ := f
  unfold processEntry at h
  split at h
  · simp at h
  · split at h
    · simp at h
      exact h.1.symm
    · simp only [] at h
      split at h
      · simp at h
        exact h.1.symm
      · split at h
        · simp at h
          exact h.1.symm
        · split at h
          · simp at h
            exact h.1.symm
          · split at h
            · simp at h
              exact h.1.symm
            · simp at h

theorem processEntry_unsupported_error (env : ZipEnv) (profile : Profile) (idx : Nat)
    (entry : ZipEntry) (hdir : entry.isDirectory = false)
    (hsup : isSupportedType (toLowerCase (extname entry.name)) = false) :
    ∃ msg, (processEntry env profile idx entry).error? = some ⟨entry.name, msg⟩ := by
  unfold processEntry
  rw [hdir]
  simp only [Bool.false_eq_true, if_false]
  rcases entry.getData with e | buf
  · exact ⟨e, rfl⟩
  · simp only [hsup, Bool.false_eq_true, not_false_eq_true, if_true]
    exact ⟨"Unsupported file type", rfl⟩

theorem sum_outcomeCount_runEntries (env : ZipEnv) (profile : Profile) :
    ∀ (l : List ZipEntry) (i : Nat),
      ((runEntries env profile i l).map outcomeCount).sum =
        (l.filter (fun e => !e.isDirectory)).length := by
  intro l
  induction l with
  | nil => intro i; rfl
  | cons x xs ih =>
    intro i
    simp only [runEntries, List.map_cons, List.sum_cons, processEntry_outcomeCount,
      List.filter_cons]
    by_cases hdir : x.isDirectory
    · simp [hdir, ih (i + 1)]
    · simp [hdir, ih (i + 1)]
      omega

theorem filterMap_length_sum (traces : List EntryTrace) :
    (traces.filterMap (fun tr => tr.asset?)).length +
      (traces.filterMap (fun tr => tr.error?)).length =
      (traces.map outcomeCount).sum := by
  induction traces with
  | nil => rfl
  | cons t ts ih =>
    rcases ha : t.asset? with _ | a <;> rcases he : t.error? with _ | e <;>
      simp only [List.filterMap_cons, ha, he, List.map_cons, List.sum_cons,
        List.length_cons, outcomeCount, Option.toList] <;>
      simp only [List.length_nil, List.length_cons] <;> omega

theorem processEntry_created_validated (env : ZipEnv) (profile : Profile) (idx : Nat)
    (entry : ZipEntry) :
    ∀ asset ∈ (processEntry env profile idx entry).created,
      entry.isDirectory = false ∧
      isSupportedType (toLowerCase (extname entry.name)) = true ∧
      ∃ buf, entry.getData = .ok buf ∧
        ∃ url, env.upload
            (generateMediaKey profile.id entry.name (env.token idx).1 (env.token idx).2)
            buf (getMimeType (toLowerCase (extname entry.name))) = .ok url ∧
          asset.fileName = entry.name := by
  intro asset hmem
  unfold processEntry at hmem
  split at hmem
  · simp at hmem
  · rename_i hdir
    split at hmem
    · simp at hmem
    · rename_i buf hgd
      simp only [] at hmem
      split at hmem
      · simp at hmem
      · rename_i hsup
        split at hmem
        · simp at hmem
        · rename_i url hup
          split at hmem
          · simp at hmem
          · rename_i analysis han
            split at hmem
            · simp at hmem
            · rename_i u hdb
              simp only [List.mem_singleton] at hmem
              refine ⟨by simp at hdir; exact hdir, by simp at hsup; exact hsup,
                buf, hgd, url, hup, ?_⟩
              rw [hmem]

theorem processEntry_analyzeCalls_eq_uploads (env : ZipEnv) (profile : Profile)
    (idx : Nat) (entry : ZipEntry) :
    (processEntry env profile idx entry).analyzeCalls =
      (processEntry env profile idx entry).uploadedKeys.length := by
  unfold processEntry
  by_cases hdir : entry.isDirectory
  · rw [if_pos hdir]
    rfl
  · rw [if_neg hdir]
    rcases entry.getData with e | buf
    · rfl
    · simp only []
      split
      · rfl
      · split
        · rfl
        · split
          · rfl
          · split <;> rfl

theorem runEntries_analyzeCalls_sum (env : ZipEnv) (profile : Profile) :
    ∀ (l : List ZipEntry) (i : Nat),
      ((runEntries env profile i l).map (fun tr => tr.analyzeCalls)).sum =
        (((runEntries env profile i l).map (fun tr => tr.uploadedKeys)).flatten).length := by
  intro l
  induction l with
  | nil => intro i; rfl
  | cons x xs ih =>
    intro i
    simp only [runEntries, List.map_cons, List.sum_cons, List.flatten_cons,
      List.length_append]
    rw [processEntry_analyzeCalls_eq_uploads, ih (i + 1)]

theorem runEntries_created_mem (env : ZipEnv) (profile : Profile) :
    ∀ (l : List ZipEntry) (i : Nat) (asset : MediaAsset),
      asset ∈ ((runEntries env profile i l).map (fun tr => tr.created)).flatten →
      ∃ idx entry, entry ∈ l ∧ asset ∈ (processEntry env profile idx entry).created := by
  intro l
  induction l with
  | nil => intro i asset h; simp [runEntries] at h
  | cons x xs ih =>
    intro i asset h
    simp only [runEntries, List.map_cons, List.flatten_cons, List.mem_append] at h
    rcases h with h | h
    · exact ⟨i, x, List.mem_cons_self x xs, h⟩
    · obtain ⟨idx, entry, hmem, hc⟩ := ih (i + 1) asset h
      exact ⟨idx, entry, List.mem_cons_of_mem x hmem, hc⟩

theorem errors_count_name_zero (env : ZipEnv) (profile : Profile) (n : String) :
    ∀ (l : List ZipEntry) (i : Nat),
      (∀ x ∈ l, x.isDirectory = false → x.name ≠ n) →
      (((runEntries env profile i l).filterMap (fun tr => tr.error?)).filter
        (fun f => f.fileName = n)).length = 0 := by
  intro l
  induction l with
  | nil => intro i _; rfl
  | cons x xs ih =>
    intro i h
    have htail := ih (i + 1) (fun y hy hyd => h y (List.mem_cons_of_mem x hy) hyd)
    simp only [runEntries, List.filterMap_cons]
    rcases he : (processEntry env profile i x).error? with _ | f
    · exact htail
    · have hname : f.fileName = x.name := processEntry_error_name env profile i x f he
      have hxdir : x.isDirectory = false := by
        cases hxd : x.isDirectory
        · rfl
        · rw [processEntry_dir env profile i x hxd] at he
          simp at he
      have hne : ¬ (f.fileName = n) := by
        rw [hname]
        exact h x (List.mem_cons_self x xs) hxdir
      rw [List.filter_cons, if_neg (by simp [hne])]
      exact htail

theorem errors_count_name_one (env : ZipEnv) (profile : Profile) (target : ZipEntry)
    (htdir : target.isDirectory = false)
    (hsup : isSupportedType (toLowerCase (extname target.name)) = false) :
    ∀ (l : List ZipEntry) (i : Nat), target ∈ l →
      ((l.filter (fun x => !x.isDirectory)).map (fun x => x.name)).Nodup →
      (((runEntries env profile i l).filterMap (fun tr => tr.error?)).filter
        (fun f => f.fileName = target.name)).length = 1 := by
  intro l
  induction l with
  | nil => intro i hmem; simp at hmem
  | cons x xs ih =>
    intro i hmem hnodup
    simp only [runEntries, List.filterMap_cons]
    rcases List.mem_cons.mp hmem with hx | hx
    · subst hx
      obtain ⟨msg, hmsg⟩ := processEntry_unsupported_error env profile i target htdir hsup
      rw [hmsg]
      have hzero : (((runEntries env profile (i + 1) xs).filterMap
          (fun tr => tr.error?)).filter (fun f => f.fileName = target.name)).length = 0 := by
        apply errors_count_name_zero
        intro y hy hyd hyn
        have hfl : target ∈ List.filter (fun x => !x.isDirectory) (target :: xs) := by
          simp [List.mem_filter, htdir]
        have hyfl : y ∈ List.filter (fun x => !x.isDirectory) xs :=
          List.mem_filter.mpr ⟨hy, by simp [hyd]⟩
        have hnn : target.name ∉ (List.filter (fun x => !x.isDirectory) xs).map
            (fun x => x.name) := by
          rw [List.filter_cons_of_pos (by simp [htdir])] at hnodup
          simp only [List.map_cons, List.nodup_cons] at hnodup
          exact hnodup.1
        exact hnn (hyn ▸ List.mem_map_of_mem (fun x => x.name) hyfl)
      rw [List.filter_cons, if_pos (by simp)]
      simp [hzero]
    · have hxname : x.isDirectory = false → x.name ≠ target.name := by
        intro hxd hxn
        have hxfl : x ∈ List.filter (fun e => !e.isDirectory) (x :: xs) := by
          simp [List.mem_filter, hxd]
        have htfl : target ∈ List.filter (fun e => !e.isDirectory) xs :=
          List.mem_filter.mpr ⟨hx, by simp [htdir]⟩
        rw [List.filter_cons_of_pos (by simp [hxd])] at hnodup
        simp only [List.map_cons, List.nodup_cons] at hnodup
        exact hnodup.1 (hxn ▸ List.mem_map_of_mem (fun e => e.name) htfl)
      have htailnodup :
          ((xs.filter (fun e => !e.isDirectory)).map (fun e => e.name)).Nodup := by
        by_cases hxd : x.isDirectory
        · rwa [List.filter_cons_of_neg (by simp [hxd])] at hnodup
        · rw [List.filter_cons_of_pos (by simp [hxd])] at hnodup
          simp only [List.map_cons, List.nodup_cons] at hnodup
          exact hnodup.2
      have htail := ih (i + 1) hx htailnodup
      rcases he : (processEntry env profile i x).error? with _ | f
      · exact htail
      · have hname : f.fileName = x.name := processEntry_error_name env profile i x f he
        have hxdir : x.isDirectory = false := by
          cases hxd : x.isDirectory
          · rfl
          · rw [processEntry_dir env profile i x hxd] at he
            simp at he
        have hne : ¬ (f.fileName = target.name) := by
          rw [hname]
          exact hxname hxdir
        rw [List.filter_cons, if_neg (by simp [hne])]
        exact htail

theorem takeWhile_append_stop (p : Char → Bool) (xs ys : List Char) (y : Char)
    (hxs : ∀ x ∈ xs, p x = true) (hy : p y = false) :
    (xs ++ y :: ys).takeWhile p = xs := by
  induction xs with
  | nil => simp [List.takeWhile_cons, hy]
  | cons a as ih =>
    rw [List.cons_append, List.takeWhile_cons, hxs a (by simp)]
    rw [if_pos rfl, ih (fun x hx => hxs x (by simp [hx]))]

theorem lastDotSeg_append (base ext : String) (hext : ∀ c ∈ ext.data, c ≠ '.') :
    lastDotSeg (base ++ "." ++ ext) = ext := by
  apply string_ext
  unfold lastDotSeg lastDotSegList
  simp only [String.data_append]
  have hdata : (base.data ++ ".".data) ++ ext.data =
      base.data ++ ('.' :: ext.data) := by simp
  rw [hdata]
  rw [if_pos (by simp)]
  rw [List.reverse_append]
  have hrev : ('.' :: ext.data).reverse = ext.data.reverse ++ ['.'] := by simp
  rw [hrev, List.append_assoc]
  have hstop : (ext.data.reverse ++ ['.'] ++ base.data.reverse).takeWhile
      (fun c => c ≠ '.') = ext.data.reverse := by
    have : ext.data.reverse ++ ['.'] ++ base.data.reverse =
        ext.data.reverse ++ '.' :: base.data.reverse := by simp
    rw [this]
    apply takeWhile_append_stop
    · intro x hx
      simp only [List.mem_reverse] at hx
      simp [hext x hx]
    · simp
  rw [← List.append_assoc, hstop, List.reverse_reverse]

/-! ## Claims -/

/-- C6: the Type Resolver maps `photo.JPG` to kind `image` with
content-type `image/jpeg`, maps `notes.xyz` to the unsupported-type
failure (`none`), and is case-insensitive in the extension: any two file
names that agree up to ASCII case resolve identically. -/
theorem resolveEntryType_cases_and_case_insensitive :
    resolveEntryType "photo.JPG" = some ("image", "image/jpeg") ∧
    resolveEntryType "notes.xyz" = none ∧
    ∀ name1 name2 : String, toLowerCase name1 = toLowerCase name2 →
      resolveEntryType name1 = resolveEntryType name2 := by
  refine ⟨by decide, by decide, ?_⟩
  intro name1 name2 h
  unfold resolveEntryType
  have hext : toLowerCase (extname name1) = toLowerCase (extname name2) := by
    rw [← extname_toLowerCase, ← extname_toLowerCase, h]
  rw [hext]

/-- C6 witness: the case-insensitivity clause applied to the upper- and
lower-cased spellings of the same extension. -/
theorem resolveEntryType_case_insensitive_witness :
    resolveEntryType "photo.JPG" = resolveEntryType "photo.jpg" :=
  resolveEntryType_cases_and_case_insensitive.2.2 "photo.JPG" "photo.jpg" (by decide)

/-- C7 counterexample: `generateMediaKey` does not lower-case the
extension — for `photo.JPG` the generated key ends in `.JPG`, not the
lower-cased `.jpg` the claim requires. -/
theorem generateMediaKey_case_counterexample :
    generateMediaKey "p1" "photo.JPG" 1700 "00ff" = "media/p1/1700-00ff.JPG" ∧
    generateMediaKey "p1" "photo.JPG" 1700 "00ff" ≠ "media/p1/1700-00ff.jpg" := by
  constructor
  · decide
  · decide

/-- C7 amended: `generateMediaKey` returns a key of the form
`media/{owner}/{timestamp}-{randomhex}.{ext}` where `ext` is the substring
of the file name after its last dot (`fileName.split('.').pop()`),
preserved in its original case rather than lower-cased. -/
theorem generateMediaKey_form (profileId base ext : String) (timestamp : Nat)
    (hash : String) (hext : ∀ c ∈ ext.data, c ≠ '.') :
    generateMediaKey profileId (base ++ "." ++ ext) timestamp hash =
      "media/" ++ profileId ++ "/" ++ natDecStr timestamp ++ "-" ++ hash ++ "." ++ ext := by
  unfold generateMediaKey
  rw [lastDotSeg_append base ext hext]

/-- C7 witness: the amended key shape at a concrete owner, file name,
timestamp and random suffix. -/
theorem generateMediaKey_form_witness :
    generateMediaKey "p1" ("photo" ++ "." ++ "JPG") 1700 "00ff" =
      "media/" ++ "p1" ++ "/" ++ natDecStr 1700 ++ "-" ++ "00ff" ++ "." ++ "JPG" :=
  generateMediaKey_form "p1" "photo" "JPG" 1700 "00ff" (by decide)

/-- C8: `generateMediaKey` is injective in the uniqueness token — for the
same owner and file name, two keys built from distinct
(timestamp, random-hex) pairs are distinct. -/
theorem generateMediaKey_distinct_tokens (profileId fileName : String)
    (t1 t2 : Nat) (h1 h2 : String) (hne : (t1, h1) ≠ (t2, h2)) :
    generateMediaKey profileId fileName t1 h1 ≠
      generateMediaKey profileId fileName t2 h2 := by
  intro heq
  obtain ⟨ht, hh⟩ := generateMediaKey_token_inj profileId fileName t1 t2 h1 h2 heq
  exact hne (by rw [ht, hh])

/-- C8 witness: two concrete tokens differing in the timestamp yield
different keys. -/
theorem generateMediaKey_distinct_tokens_witness :
    generateMediaKey "p1" "photo.jpg" 1700 "00ff" ≠
      generateMediaKey "p1" "photo.jpg" 1701 "00ff" :=
  generateMediaKey_distinct_tokens "p1" "photo.jpg" 1700 1701 "00ff" "00ff" (by decide)

/-- C9: when the archive bytes cannot be parsed (`new AdmZip` throws),
`uploadZipArchive` fails as one request-level error before any entry is
processed: no object is uploaded, no MediaAsset is persisted, and the
classifier is never called. -/
theorem uploadZipArchive_invalid_archive (env : ZipEnv) (profile : Profile)
    (zipBuffer : List Nat) (e : String)
    (hparse : env.parseZip zipBuffer = .error e) :
    uploadZipArchive env profile zipBuffer = (.error e, ⟨[], [], 0⟩) := by
  unfold uploadZipArchive
  rw [hparse]

/-- C9 witness: a concrete environment whose parser rejects the bytes. -/
theorem uploadZipArchive_invalid_archive_witness :
    uploadZipArchive corruptZipEnv testProfile [0, 1, 2] =
      (.error "Invalid or unsupported zip format", ⟨[], [], 0⟩) :=
  uploadZipArchive_invalid_archive corruptZipEnv testProfile [0, 1, 2]
    "Invalid or unsupported zip format" rfl

/-- C2: for every archive upload that parses, the batch response satisfies
`successful + failed = total`; `total` equals the number of non-directory
entries (exactly one outcome per non-directory entry, none for
directories); and when the non-directory entry names are distinct, every
entry whose type cannot be resolved contributes exactly one failure with
its name to the failure list. -/
theorem uploadZipArchive_batch_invariants (env : ZipEnv) (profile : Profile)
    (zipBuffer : List Nat) (entries : List ZipEntry)
    (hparse : env.parseZip zipBuffer = .ok entries) :
    ∃ resp : BatchResponse,
      (uploadZipArchive env profile zipBuffer).1 = .ok resp ∧
      resp.summary.successful + resp.summary.failed = resp.summary.total ∧
      resp.summary.total = (entries.filter (fun e => !e.isDirectory)).length ∧
      (∀ idx entry, entry.isDirectory = false →
        outcomeCount (processEntry env profile idx entry) = 1) ∧
      (∀ entry ∈ entries, entry.isDirectory = false →
        isSupportedType (toLowerCase (extname entry.name)) = false →
        ((entries.filter (fun x => !x.isDirectory)).map (fun x => x.name)).Nodup →
        (resp.errors.filter (fun f => f.fileName = entry.name)).length = 1) := by
  unfold uploadZipArchive
  rw [hparse]
  refine ⟨_, rfl, rfl, ?_, ?_, ?_⟩
  · rw [filterMap_length_sum, sum_outcomeCount_runEntries]
  · intro idx entry hdir
    rw [processEntry_outcomeCount]
    simp [hdir]
  · intro entry hmem hdir hsup hnodup
    exact errors_count_name_one env profile entry hdir hsup entries 0 hmem hnodup

/-- C2 witness: the three-entry archive `a.jpg`, `b.mp4`, `c.exe` — the
counts add up, the total is 3, and `c.exe` appears exactly once in the
failure list. -/
theorem uploadZipArchive_batch_invariants_witness :
    ∃ resp : BatchResponse,
      (uploadZipArchive mixedZipEnv testProfile [9]).1 = .ok resp ∧
      resp.summary.successful + resp.summary.failed = resp.summary.total ∧
      resp.summary.total = 3 ∧
      (resp.errors.filter (fun f => f.fileName = "c.exe")).length = 1 := by
  obtain ⟨resp, h1, h2, h3, _, h5⟩ :=
    uploadZipArchive_batch_invariants mixedZipEnv testProfile [9] testMixedEntries rfl
  refine ⟨resp, h1, h2, ?_, ?_⟩
  · rw [h3]
    decide
  · exact h5 ⟨"c.exe", false, .ok [5]⟩ (by decide) rfl (by decide) (by decide)

/-- C5: every MediaAsset record persisted by `uploadZipArchive` comes from
a non-directory entry whose bytes were read, whose extension passed type
resolution, and whose Object Store upload succeeded; no record is ever
persisted for an entry that failed validation or upload. -/
theorem uploadZipArchive_creates_validated (env : ZipEnv) (profile : Profile)
    (zipBuffer : List Nat) (entries : List ZipEntry)
    (hparse : env.parseZip zipBuffer = .ok entries) :
    ∀ asset ∈ (uploadZipArchive env profile zipBuffer).2.creates,
      ∃ idx entry, entry ∈ entries ∧
        entry.isDirectory = false ∧
        isSupportedType (toLowerCase (extname entry.name)) = true ∧
        ∃ buf, entry.getData = .ok buf ∧
          ∃ url, env.upload
              (generateMediaKey profile.id entry.name (env.token idx).1 (env.token idx).2)
              buf (getMimeType (toLowerCase (extname entry.name))) = .ok url ∧
            asset.fileName = entry.name := by
  intro asset hmem
  unfold uploadZipArchive at hmem
  rw [hparse] at hmem
  simp only [] at hmem
  obtain ⟨idx, entry, hentry, hc⟩ := runEntries_created_mem env profile entries 0 asset hmem
  obtain ⟨hdir, hsup, buf, hgd, url, hup, hname⟩ :=
    processEntry_created_validated env profile idx entry asset hc
  exact ⟨idx, entry, hentry, hdir, hsup, buf, hgd, url, hup, hname⟩

/-- C5 witness: in the mixed three-entry archive, the first persisted
asset (for `a.jpg`) is traced back to a validated, uploaded entry. -/
theorem uploadZipArchive_creates_validated_witness :
    ∃ idx entry, entry ∈ testMixedEntries ∧
      entry.isDirectory = false ∧
      isSupportedType (toLowerCase (extname entry.name)) = true ∧
      ∃ buf, entry.getData = .ok buf ∧
        ∃ url, mixedZipEnv.upload
            (generateMediaKey testProfile.id entry.name (mixedZipEnv.token idx).1
              (mixedZipEnv.token idx).2)
            buf (getMimeType (toLowerCase (extname entry.name))) = .ok url ∧
          ((uploadZipArchive mixedZipEnv testProfile [9]).2.creates.headD
            ⟨"", "", "", "", 0, "", [], ⟨"", [], ""⟩⟩).fileName = entry.name := by
  have h := uploadZipArchive_creates_validated mixedZipEnv testProfile [9]
    testMixedEntries rfl
    ((uploadZipArchive mixedZipEnv testProfile [9]).2.creates.headD
      ⟨"", "", "", "", 0, "", [], ⟨"", [], ""⟩⟩)
    (by decide)
  exact h

/-- C4 counterexample: for an archive with two valid entries and an
all-succeeding environment, `uploadZipArchive` invokes the Content
Classifier twice — once per entry — not exactly once for the whole set. -/
theorem uploadZipArchive_classifier_per_entry_counterexample :
    (uploadZipArchive twoEntryZipEnv testProfile [9]).2.analyzeCalls = 2 ∧
    ¬ ((uploadZipArchive twoEntryZipEnv testProfile [9]).2.analyzeCalls = 1) := by
  constructor
  · decide
  · decide

/-- C4 amended: `uploadZipArchive` (the live backend controller) calls
`analyzeMedia` exactly once per successfully uploaded entry, each time
with a one-element batch; the sibling `uploadArchive` variant calls it
exactly once for the whole batch whenever the upload loop completes. -/
theorem classifier_invocation_counts :
    (∀ (env : ZipEnv) (profile : Profile) (zipBuffer : List Nat)
        (entries : List ZipEntry),
      env.parseZip zipBuffer = .ok entries →
      (uploadZipArchive env profile zipBuffer).2.analyzeCalls =
        (uploadZipArchive env profile zipBuffer).2.uploads.length) ∧
    (∀ (env : ArchiveEnv) (profile : Profile) (zipBuffer : List Nat)
        (entries : List ZipEntry) (uploadedFiles : List ArchiveUpload),
      env.parseZip zipBuffer = .ok entries →
      collectUploads env profile.username 0 entries = .ok uploadedFiles →
      (uploadArchive env profile zipBuffer).2 = 1) := by
  constructor
  · intro env profile zipBuffer entries hparse
    unfold uploadZipArchive
    rw [hparse]
    simp only []
    exact runEntries_analyzeCalls_sum env profile entries 0
  · intro env profile zipBuffer entries uploadedFiles hparse hcollect
    unfold uploadArchive
    rw [hparse]
    simp only []
    rw [hcollect]
    simp only []
    cases analyzeMedia env.classifier
        (uploadedFiles.map (fun f => FileDesc.mk f.fileName f.fileType none))
        profile.professionType with
    | error e => rfl
    | ok analyzedFiles => rfl

/-- C4 witness: on the two-entry archive, the controller's call count
equals its upload count, and the sibling variant makes exactly one call. -/
theorem classifier_invocation_counts_witness :
    (uploadZipArchive twoEntryZipEnv testProfile [9]).2.analyzeCalls =
      (uploadZipArchive twoEntryZipEnv testProfile [9]).2.uploads.length ∧
    (uploadArchive twoEntryArchiveEnv testProfile [9]).2 = 1 :=
  ⟨classifier_invocation_counts.1 twoEntryZipEnv testProfile [9] testTwoEntries rfl,
   classifier_invocation_counts.2 twoEntryArchiveEnv testProfile [9] testTwoEntries
     [⟨"a.jpg", "image", "https://url", 2⟩, ⟨"b.mp4", "video", "https://url", 2⟩]
     rfl (by decide)⟩

/-- C1 counterexample: when the Content Classifier call throws, the
`ai.service.ts` adapter rethrows, so `uploadMediaFile` returns a
request-level error and persists no MediaAsset — the upload is not
answered with a success response carrying a default-categorised asset. -/
theorem uploadMediaFile_classifier_throw_counterexample :
    (uploadMediaFile throwingSingleEnv testProfile testPdfFile none).1 =
      .error "APIConnectionError" ∧
    (uploadMediaFile throwingSingleEnv testProfile testPdfFile none).2.creates = [] := by
  constructor
  · decide
  · decide

/-- C1 amended: after a successful upload, if `analyzeMedia` returns
without throwing but with an empty result list (for instance when the
model response has no text block), `uploadMediaFile` persists one
MediaAsset with category `Uncategorized` and empty tags and answers with
the success response; if `analyzeMedia` throws (the classifier call fails
or its JSON is malformed), the whole request fails and nothing is
persisted. -/
theorem uploadMediaFile_classifier_outcomes (env : SingleEnv) (profile : Profile)
    (file : UploadedFile) (description : Option String) (url : String)
    (hup : env.upload
      (generateMediaKey profile.id file.originalname env.now env.randomHex)
      file.buffer file.mimetype = .ok url) :
    (analyzeMedia env.classifier
        [⟨file.originalname, fileTypeOf file.mimetype, description⟩]
        profile.professionType = .ok [] →
      env.dbCreate ⟨profile.id, file.originalname, fileTypeOf file.mimetype, url,
        file.size, "Uncategorized", [],
        ⟨"Uncategorized", [], description.getD ""⟩⟩ = .ok () →
      uploadMediaFile env profile file description =
        (.success
          ⟨profile.id, file.originalname, fileTypeOf file.mimetype, url, file.size,
            "Uncategorized", [], ⟨"Uncategorized", [], description.getD ""⟩⟩
          (generateMediaKey profile.id file.originalname env.now env.randomHex),
         ⟨[generateMediaKey profile.id file.originalname env.now env.randomHex],
          [⟨profile.id, file.originalname, fileTypeOf file.mimetype, url, file.size,
            "Uncategorized", [], ⟨"Uncategorized", [], description.getD ""⟩⟩]⟩)) ∧
    (∀ e, analyzeMedia env.classifier
        [⟨file.originalname, fileTypeOf file.mimetype, description⟩]
        profile.professionType = .error e →
      (uploadMediaFile env profile file description).1 = .error e ∧
      (uploadMediaFile env profile file description).2.creates = []) := by
  constructor
  · intro hana hdb
    unfold uploadMediaFile
    simp only []
    rw [hup]
    simp only []
    rw [hana]
    simp only [List.head?_nil, Option.getD_none]
    rw [hdb]
  · intro e hana
    unfold uploadMediaFile
    simp only []
    rw [hup]
    simp only []
    rw [hana]
    exact ⟨rfl, rfl⟩

/-- C1 witness: a concrete single-file upload of `resume.pdf` with an
empty classifier result is persisted with category `Uncategorized` and
empty tags. -/
theorem uploadMediaFile_classifier_outcomes_witness :
    uploadMediaFile emptySingleEnv testProfile testPdfFile none =
      (.success
        ⟨"p1", "resume.pdf", "document", "https://url", 4, "Uncategorized", [],
          ⟨"Uncategorized", [], ""⟩⟩
        (generateMediaKey "p1" "resume.pdf" 1700 "00ff"),
       ⟨[generateMediaKey "p1" "resume.pdf" 1700 "00ff"],
        [⟨"p1", "resume.pdf", "document", "https://url", 4, "Uncategorized", [],
          ⟨"Uncategorized", [], ""⟩⟩]⟩) :=
  (uploadMediaFile_classifier_outcomes emptySingleEnv testProfile testPdfFile none
    "https://url" rfl).1 rfl rfl

/-- C3 counterexample: when the external service answers with a text block
that is not valid JSON, `analyzeMedia` raises the parse error to its
caller instead of returning an empty result list. -/
theorem analyzeMedia_malformed_counterexample :
    analyzeMedia malformedClassifier [⟨"a.jpg", "image", none⟩] "Photographer" =
      .error "SyntaxError: Unexpected token" ∧
    analyzeMedia malformedClassifier [⟨"a.jpg", "image", none⟩] "Photographer" ≠
      .ok [] := by
  constructor
  · decide
  · decide

/-- C3 amended: `analyzeMedia` returns `[]` without raising only when the
model response carries no text block (missing JSON); when the text block
is malformed JSON, the `JSON.parse` error propagates to the caller, as
does an error thrown by the model call itself. -/
theorem analyzeMedia_error_behaviour (env : ClassifierEnv) (fileData : List FileDesc)
    (professionType : String) :
    (env.createMessage fileData professionType = .ok .other →
      analyzeMedia env fileData professionType = .ok []) ∧
    (∀ s e, env.createMessage fileData professionType = .ok (.text s) →
      env.parseContent s = .error e →
      analyzeMedia env fileData professionType = .error e) ∧
    (∀ e, env.createMessage fileData professionType = .error e →
      analyzeMedia env fileData professionType = .error e) := by
  refine ⟨?_, ?_, ?_⟩
  · intro h
    unfold analyzeMedia
    rw [h]
  · intro s e h hp
    unfold analyzeMedia
    rw [h]
    exact hp
  · intro e h
    unfold analyzeMedia
    rw [h]

/-- C3 witness: a non-text response yields `.ok []`; a malformed text
response yields the parse error. -/
theorem analyzeMedia_error_behaviour_witness :
    analyzeMedia emptyResultClassifier [⟨"a.jpg", "image", none⟩] "Photographer" =
      .ok [] ∧
    analyzeMedia malformedClassifier [⟨"a.jpg", "image", none⟩] "Photographer" =
      .error "SyntaxError: Unexpected token" :=
  ⟨(analyzeMedia_error_behaviour emptyResultClassifier
      [⟨"a.jpg", "image", none⟩] "Photographer").1 rfl,
   (analyzeMedia_error_behaviour malformedClassifier
      [⟨"a.jpg", "image", none⟩] "Photographer").2.1
      "Sure! Here is a friendly answer." "SyntaxError: Unexpected token" rfl rfl⟩

/-- C10: `uploadToS3` returns the virtual-hosted URL
`https://BUCKET.s3.amazonaws.com/KEY`, in which the separator `BUCKET/`
used by `deleteMediaAsset` never occurs, so its split-based key
extraction evaluates to `undefined` (`none`) rather than the original
key; the sibling `deleteMedia`'s pathname-based extraction does recover
the key from the same URL. -/
theorem deleteMediaAsset_key_extraction_bug :
    s3Url "profolia-portfolios" "media/p1/1700-00ff.jpg" =
      "https://profolia-portfolios.s3.amazonaws.com/media/p1/1700-00ff.jpg" ∧
    extractS3Key "profolia-portfolios"
      (s3Url "profolia-portfolios" "media/p1/1700-00ff.jpg") = none ∧
    deleteMediaKey (s3Url "profolia-portfolios" "media/p1/1700-00ff.jpg") =
      "media/p1/1700-00ff.jpg" := by
  refine ⟨by decide, by decide, by decide⟩
